import Mathlib

/-!
Verification of the adaptive request-pacing controller (`SmartAnalyzer` in
`analyzer.py`, constants from `config.py`).

Durations and timestamps are modelled as rationals; all arithmetic the
claims touch (multiplication by the fixed factors, `min`/`max` clamping)
is exact on the concrete values involved, so the rational model agrees
with the source on every property stated below.
-/

namespace Ico

/-- `RateLimitConfig` constants from `config.py`. -/
def min_delay : ℚ := 3
def max_delay : ℚ := 8
def batch_size : ℕ := 10
def batch_delay : ℚ := 300
def success_reduction : ℚ := 9/10
def failure_increase : ℚ := 3/2
def max_dynamic_delay : ℚ := 30

/-- The four outcome kinds of `RateLimitEvent.event_type`. -/
inductive EventType where
  | success
  | rate_limit
  | error
  | timeout
deriving DecidableEq

/-- The `RateLimitEvent` dataclass. -/
structure RateLimitEvent where
  timestamp : ℚ
  event_type : EventType
  delay_used : ℚ
  response_time : ℚ
  error_message : String
deriving DecidableEq

/-- The mutable fields of `SmartAnalyzer`. -/
structure AnalyzerState where
  events : List RateLimitEvent
  current_delay : ℚ
  consecutive_successes : ℕ
  consecutive_failures : ℕ
  last_request_time : ℚ
  rate_limit_detected : Bool
deriving DecidableEq

/-- The state built by `SmartAnalyzer.__init__` before `_load_analysis` runs. -/
def freshState : AnalyzerState :=
  { events := []
    current_delay := min_delay
    consecutive_successes := 0
    consecutive_failures := 0
    last_request_time := 0
    rate_limit_detected := false }

/-- `SmartAnalyzer._adjust_delay`. -/
def adjustDelay (s : AnalyzerState) : AnalyzerState :=
  let s :=
    if 5 ≤ s.consecutive_successes then
      { s with current_delay := max (s.current_delay * success_reduction) min_delay }
    else if 2 ≤ s.consecutive_failures then
      { s with current_delay := min (s.current_delay * failure_increase) max_dynamic_delay }
    else s
  if s.rate_limit_detected = true ∧ 1 ≤ s.consecutive_failures then
    { s with current_delay := min max_dynamic_delay (s.current_delay * 2) }
  else s

/-- `SmartAnalyzer.record_event` (`now` stands for the `time.time()` call;
the periodic `_save_analysis` is I/O only and does not change the fields). -/
def recordEvent (s : AnalyzerState) (event_type : EventType)
    (delay_used : ℚ) (response_time : ℚ) (error_message : String)
    (now : ℚ) : AnalyzerState :=
  let event : RateLimitEvent :=
    { timestamp := now,
      event_type := event_type,
      delay_used := delay_used,
      response_time := response_time,
      error_message := error_message }
  let s := { s with events := s.events ++ [event] }
  let s :=
    match event_type with
    | .success =>
        { s with consecutive_successes := s.consecutive_successes + 1,
                 consecutive_failures := 0,
                 rate_limit_detected := false }
    | .rate_limit =>
        { s with consecutive_failures := s.consecutive_failures + 1,
                 consecutive_successes := 0,
                 rate_limit_detected := true }
    | .error =>
        { s with consecutive_failures := s.consecutive_failures + 1,
                 consecutive_successes := 0 }
    | .timeout =>
        { s with consecutive_failures := s.consecutive_failures + 1,
                 consecutive_successes := 0 }
  adjustDelay s

/-- One call to `record_event`, with the arguments the caller passes. -/
structure OutcomeCall where
  event_type : EventType
  delay_used : ℚ
  response_time : ℚ
  error_message : String
  now : ℚ

/-- A sequence of `record_event` calls applied in order. -/
def applyEvents (s : AnalyzerState) : List OutcomeCall → AnalyzerState
  | [] => s
  | c :: cs =>
      applyEvents
        (recordEvent s c.event_type c.delay_used c.response_time
          c.error_message c.now) cs

/-- `SmartAnalyzer.get_next_delay`, with the `random.uniform(0.8, 1.2)`
draw passed in as `jitter`. The source mutates no field. -/
def getNextDelay (s : AnalyzerState) (jitter : ℚ) : ℚ :=
  let base_delay := s.current_delay
  let calculated_delay := base_delay * jitter
  let calculated_delay :=
    if s.rate_limit_detected then calculated_delay * 2 else calculated_delay
  min calculated_delay max_dynamic_delay

/-- The `status` strings produced by `get_status_report`. -/
inductive Status where
  | no_data
  | rate_limited
  | optimal
  | cautious
  | problematic
deriving DecidableEq

/-- The dict returned by `get_status_report`; fields missing from the
`no_data` dict are `Option`s. -/
structure StatusReport where
  status : Status
  message : String
  success_rate : Option ℚ
  current_delay : ℚ
  avg_delay : Option ℚ
  consecutive_successes : Option ℕ
  consecutive_failures : Option ℕ
  rate_limit_detected : Bool
  events_last_hour : Option ℕ

/-- `SmartAnalyzer.get_status_report` (`now` stands for `time.time()`).
The source mutates no field of the analyzer. -/
def getStatusReport (s : AnalyzerState) (now : ℚ) : StatusReport :=
  let recent_events := s.events.filter (fun e => now - 3600 < e.timestamp)
  if recent_events.isEmpty then
    { status := .no_data,
      message := "No recent activity to analyze",
      success_rate := none,
      current_delay := s.current_delay,
      avg_delay := none,
      consecutive_successes := none,
      consecutive_failures := none,
      rate_limit_detected := false,
      events_last_hour := none }
  else
    let success_rate : ℚ :=
      ((recent_events.filter (fun e => e.event_type = .success)).length : ℚ) /
        (recent_events.length : ℚ)
    let avg_delay : ℚ :=
      (recent_events.map (fun e => e.delay_used)).sum / (recent_events.length : ℚ)
    let sm : Status × String :=
      if s.rate_limit_detected then
        (.rate_limited, "Rate limiting detected - using conservative delays")
      else if 9/10 < success_rate then
        (.optimal, "Operating at optimal speed")
      else if 7/10 < success_rate then
        (.cautious, "Some issues detected - using moderate delays")
      else
        (.problematic, "High failure rate - using maximum delays")
    { status := sm.1,
      message := sm.2,
      success_rate := some success_rate,
      current_delay := s.current_delay,
      avg_delay := some avg_delay,
      consecutive_successes := some s.consecutive_successes,
      consecutive_failures := some s.consecutive_failures,
      rate_limit_detected := s.rate_limit_detected,
      events_last_hour := some recent_events.length }

/-- The JSON snapshot written by `_save_analysis` and read by
`_load_analysis`. Each entry of `recent_events` models one record of the
JSON array: `some e` is a record on which `RateLimitEvent(**event)`
succeeds, `none` one on which it raises. -/
structure Snapshot where
  current_delay : ℚ
  consecutive_successes : ℕ
  consecutive_failures : ℕ
  rate_limit_detected : Bool
  last_updated : ℚ
  recent_events : List (Option RateLimitEvent)

/-- `SmartAnalyzer._save_analysis`: the snapshot it writes (`now` stands
for `time.time()`); `events[-100:]` keeps the last 100 events. -/
def saveAnalysis (s : AnalyzerState) (now : ℚ) : Snapshot :=
  { current_delay := s.current_delay,
    consecutive_successes := s.consecutive_successes,
    consecutive_failures := s.consecutive_failures,
    rate_limit_detected := s.rate_limit_detected,
    last_updated := now,
    recent_events := (s.events.drop (s.events.length - 100)).map some }

/-- What `_load_analysis` finds on disk: no file, a file `json.load`
rejects, or a parsed snapshot. -/
inductive SnapshotFile where
  | absent
  | unparseable
  | parsed (snap : Snapshot)

/-- `some` of the list of events when every record constructs, `none` as
soon as one raises (the list comprehension in `_load_analysis` either
builds the whole list or raises before `self.events` is assigned). -/
def buildEvents : List (Option RateLimitEvent) → Option (List RateLimitEvent)
  | [] => some []
  | none :: _ => none
  | some e :: rest =>
      match buildEvents rest with
      | some evs => some (e :: evs)
      | none => none

/-- `SmartAnalyzer._load_analysis` (`now` stands for `time.time()`).
The scalar fields are assigned before the event list is built, and the
`except` clause only logs, so a record that fails to construct leaves the
already-assigned scalar fields in place with `events` untouched. -/
def loadAnalysis (s : AnalyzerState) (file : SnapshotFile) (now : ℚ) :
    AnalyzerState :=
  match file with
  | .absent => s
  | .unparseable => s
  | .parsed snap =>
      if now - snap.last_updated < 86400 then
        let s := { s with
          current_delay := snap.current_delay,
          consecutive_successes := snap.consecutive_successes,
          consecutive_failures := snap.consecutive_failures,
          rate_limit_detected := snap.rate_limit_detected }
        match buildEvents snap.recent_events with
        | some evs => { s with events := evs }
        | none => s
      else s

/-- `SmartAnalyzer.__init__` with the snapshot file contents passed in. -/
def initAnalyzer (file : SnapshotFile) (now : ℚ) : AnalyzerState :=
  loadAnalysis freshState file now

/-- The effective delay `wait_with_progress` arrives at after enforcing
the minimum spacing floor (`now` stands for the `time.time()` call that
measures `time_since_last`). -/
def effectiveWaitDelay (s : AnalyzerState) (delay : ℚ) (now : ℚ) : ℚ :=
  if 0 < s.last_request_time ∧ now - s.last_request_time < min_delay then
    max delay (min_delay - (now - s.last_request_time))
  else delay

/-- `SmartAnalyzer.wait_with_progress`: the state update. When the
effective delay is `≤ 0` the method returns at once and stamps `now`;
otherwise it blocks and stamps the post-sleep clock reading `exitTime`
(callers supply `exitTime ≥ now + effective delay`, since both
`time.sleep` and the progress loop block for at least the delay). -/
def waitWithProgress (s : AnalyzerState) (delay : ℚ) (now exitTime : ℚ) :
    AnalyzerState :=
  let d := effectiveWaitDelay s delay now
  if d ≤ 0 then { s with last_request_time := now }
  else { s with last_request_time := exitTime }

/-- A stock event record used in concrete instantiations. -/
def sampleEvent : RateLimitEvent :=
  { timestamp := 0, event_type := .success, delay_used := 0,
    response_time := 0, error_message := "" }

/-! ## Helper lemmas -/

lemma adjustDelay_bounds (s : AnalyzerState)
    (h1 : min_delay ≤ s.current_delay) (h2 : s.current_delay ≤ max_dynamic_delay) :
    min_delay ≤ (adjustDelay s).current_delay ∧
      (adjustDelay s).current_delay ≤ max_dynamic_delay := by
  unfold adjustDelay
  rw [min_delay] at h1
  rw [max_dynamic_delay] at h2
  have k1 : (3:ℚ) ≤ s.current_delay * (9/10) ⊔ 3 := le_max_right _ _
  have k2 : s.current_delay * (9/10) ⊔ 3 ≤ 30 := max_le (by linarith) (by norm_num)
  have k3 : (3:ℚ) ≤ s.current_delay * (3/2) ⊓ 30 := le_min (by linarith) (by norm_num)
  have k4 : s.current_delay * (3/2) ⊓ 30 ≤ 30 := min_le_right _ _
  simp only [apply_ite AnalyzerState.current_delay]
  split_ifs <;>
    constructor <;>
    simp only [le_max_iff, max_le_iff, le_min_iff, min_le_iff, le_sup_iff,
      sup_le_iff, le_inf_iff, inf_le_iff, min_delay,
      max_dynamic_delay, success_reduction, failure_increase] <;>
    first
      | linarith
      | (left; linarith)
      | (right; linarith)
      | (constructor <;> linarith)

lemma adjustDelay_consecutive_successes (s : AnalyzerState) :
    (adjustDelay s).consecutive_successes = s.consecutive_successes := by
  unfold adjustDelay
  simp only [apply_ite AnalyzerState.consecutive_successes]
  split_ifs <;> rfl

lemma adjustDelay_consecutive_failures (s : AnalyzerState) :
    (adjustDelay s).consecutive_failures = s.consecutive_failures := by
  unfold adjustDelay
  simp only [apply_ite AnalyzerState.consecutive_failures]
  split_ifs <;> rfl

lemma adjustDelay_rate_limit_detected (s : AnalyzerState) :
    (adjustDelay s).rate_limit_detected = s.rate_limit_detected := by
  unfold adjustDelay
  simp only [apply_ite AnalyzerState.rate_limit_detected]
  split_ifs <;> rfl

lemma adjustDelay_events (s : AnalyzerState) :
    (adjustDelay s).events = s.events := by
  unfold adjustDelay
  simp only [apply_ite AnalyzerState.events]
  split_ifs <;> rfl

lemma recordEvent_current_delay_eq (s : AnalyzerState) (etype : EventType)
    (d r : ℚ) (m : String) (now : ℚ) :
    ∃ s' : AnalyzerState, recordEvent s etype d r m now = adjustDelay s' ∧
      s'.current_delay = s.current_delay := by
  cases etype <;> exact ⟨_, rfl, rfl⟩

lemma recordEvent_bounds (s : AnalyzerState) (etype : EventType)
    (d r : ℚ) (m : String) (now : ℚ)
    (h1 : min_delay ≤ s.current_delay) (h2 : s.current_delay ≤ max_dynamic_delay) :
    min_delay ≤ (recordEvent s etype d r m now).current_delay ∧
      (recordEvent s etype d r m now).current_delay ≤ max_dynamic_delay := by
  obtain ⟨s', hs', hd⟩ := recordEvent_current_delay_eq s etype d r m now
  rw [hs']
  exact adjustDelay_bounds s' (hd ▸ h1) (hd ▸ h2)

lemma applyEvents_bounds (l : List OutcomeCall) :
    ∀ s : AnalyzerState,
      min_delay ≤ s.current_delay → s.current_delay ≤ max_dynamic_delay →
      min_delay ≤ (applyEvents s l).current_delay ∧
        (applyEvents s l).current_delay ≤ max_dynamic_delay := by
  induction l with
  | nil => exact fun s h1 h2 => ⟨h1, h2⟩
  | cons c cs ih =>
      intro s h1 h2
      obtain ⟨k1, k2⟩ := recordEvent_bounds s c.event_type c.delay_used
        c.response_time c.error_message c.now h1 h2
      exact ih _ k1 k2

/-! ## Claim theorems -/

/-- Claim C1: starting from the default fresh state, after every
`record_event` call `min_delay ≤ current_delay ≤ max_dynamic_delay` holds
(every prefix of a call sequence is itself a call sequence, so this covers
the state after each intermediate call as well). -/
theorem delay_always_within_bounds (l : List OutcomeCall) :
    min_delay ≤ (applyEvents freshState l).current_delay ∧
      (applyEvents freshState l).current_delay ≤ max_dynamic_delay :=
  applyEvents_bounds l freshState (le_refl _)
    (by norm_num [freshState, min_delay, max_dynamic_delay])

/-- Claim C2: from the fresh state, `record_event` with `rate_limit` takes
`current_delay` from 3.0 to 6.0 (the doubling rule fires on the first
rate-limit event alone), and a following `error` event multiplies by the
failure-increase factor 1.5 and then doubles again: 6.0 * 1.5 = 9.0, then
9.0 * 2 = 18.0, all results ≤ 30.0, with `rate_limit_detected` true. -/
theorem rate_limit_then_error_compounds :
    (recordEvent freshState .rate_limit 3 0 "" 0).current_delay = 6 ∧
    (recordEvent freshState .rate_limit 3 0 "" 0).rate_limit_detected = true ∧
    (recordEvent (recordEvent freshState .rate_limit 3 0 "" 0)
        .error 6 0 "" 1).current_delay = 18 ∧
    (recordEvent (recordEvent freshState .rate_limit 3 0 "" 0)
        .error 6 0 "" 1).rate_limit_detected = true ∧
    (18:ℚ) ≤ max_dynamic_delay := by
  refine ⟨?_, ?_, ?_, ?_, ?_⟩ <;>
    norm_num [recordEvent, adjustDelay, freshState, min_delay, max_dynamic_delay,
      failure_increase, success_reduction]


lemma recordEvent_exactly_one (s : AnalyzerState) (etype : EventType)
    (d r : ℚ) (m : String) (now : ℚ) :
    ((recordEvent s etype d r m now).consecutive_successes ≠ 0 ∧
      (recordEvent s etype d r m now).consecutive_failures = 0) ∨
    ((recordEvent s etype d r m now).consecutive_successes = 0 ∧
      (recordEvent s etype d r m now).consecutive_failures ≠ 0) := by
  cases etype <;>
    simp [recordEvent, adjustDelay_consecutive_successes,
      adjustDelay_consecutive_failures]

lemma applyEvents_exactly_one (l : List OutcomeCall) :
    ∀ s : AnalyzerState, l ≠ [] →
      ((applyEvents s l).consecutive_successes ≠ 0 ∧
        (applyEvents s l).consecutive_failures = 0) ∨
      ((applyEvents s l).consecutive_successes = 0 ∧
        (applyEvents s l).consecutive_failures ≠ 0) := by
  induction l with
  | nil => exact fun s h => absurd rfl h
  | cons c rest ih =>
      intro s _
      cases rest with
      | nil =>
          simpa [applyEvents] using recordEvent_exactly_one s c.event_type
            c.delay_used c.response_time c.error_message c.now
      | cons c2 rest2 => exact ih _ (by simp)

/-- Claim C3, counterexample: in the fresh state, the instant before the
first call, both counters are zero, so "exactly one of the two counters is
nonzero" fails there. -/
theorem counters_not_exactly_one_initially :
    ¬ ((freshState.consecutive_successes ≠ 0 ∧ freshState.consecutive_failures = 0) ∨
       (freshState.consecutive_successes = 0 ∧ freshState.consecutive_failures ≠ 0)) := by
  simp [freshState]

/-- Claim C3 as amended: at every instant at most one of the two counters
is nonzero (in the fresh state both are zero), and after every
`record_event` call exactly one of them is nonzero, the other having been
reset on the opposite outcome kind. -/
theorem counters_mutually_exclusive (l : List OutcomeCall) :
    ((applyEvents freshState l).consecutive_successes = 0 ∨
      (applyEvents freshState l).consecutive_failures = 0) ∧
    (l ≠ [] →
      ((applyEvents freshState l).consecutive_successes ≠ 0 ∧
        (applyEvents freshState l).consecutive_failures = 0) ∨
      ((applyEvents freshState l).consecutive_successes = 0 ∧
        (applyEvents freshState l).consecutive_failures ≠ 0)) := by
  refine ⟨?_, fun hl => applyEvents_exactly_one l freshState hl⟩
  cases l with
  | nil => exact Or.inl rfl
  | cons c rest =>
      rcases applyEvents_exactly_one (c :: rest) freshState (by simp) with
        ⟨_, h⟩ | ⟨h, _⟩
      · exact Or.inr h
      · exact Or.inl h

/-- Witness for the amended claim C3 at the one-call sequence
`[success]`. -/
theorem counters_mutually_exclusive_witness :
    ((applyEvents freshState [⟨.success, 0, 0, "", 0⟩]).consecutive_successes ≠ 0 ∧
      (applyEvents freshState [⟨.success, 0, 0, "", 0⟩]).consecutive_failures = 0) ∨
    ((applyEvents freshState [⟨.success, 0, 0, "", 0⟩]).consecutive_successes = 0 ∧
      (applyEvents freshState [⟨.success, 0, 0, "", 0⟩]).consecutive_failures ≠ 0) :=
  (counters_mutually_exclusive [⟨.success, 0, 0, "", 0⟩]).2 (by simp)

/-- Claim C4: after `record_event`, `rate_limit_detected` is true for a
`rate_limit` outcome, false for a `success`, and unchanged from its
previous value for `error` and `timeout`. -/
theorem rate_limit_flag_update (s : AnalyzerState) (etype : EventType)
    (d r : ℚ) (m : String) (now : ℚ) :
    (recordEvent s etype d r m now).rate_limit_detected =
      match etype with
      | .success => false
      | .rate_limit => true
      | .error => s.rate_limit_detected
      | .timeout => s.rate_limit_detected := by
  cases etype <;> simp [recordEvent, adjustDelay_rate_limit_detected]


/-- Claim C5: for any state and any jitter draw in [0.8, 1.2],
`get_next_delay` returns
`min (current_delay * jitter * (2 if the flag is set else 1)) max_dynamic_delay`;
the source mutates no field, which the embedding reflects by
`getNextDelay` being a function of the state alone. -/
theorem getNextDelay_formula (s : AnalyzerState) (jitter : ℚ)
    (h1 : 4/5 ≤ jitter) (h2 : jitter ≤ 6/5) :
    getNextDelay s jitter =
      min (s.current_delay * jitter * (if s.rate_limit_detected then 2 else 1))
        max_dynamic_delay := by
  unfold getNextDelay
  cases hs : s.rate_limit_detected <;> simp [hs]

/-- Witness for claim C5 at the fresh state with jitter 1. -/
theorem getNextDelay_formula_witness :
    getNextDelay freshState 1 =
      min (freshState.current_delay * 1 *
        (if freshState.rate_limit_detected then 2 else 1)) max_dynamic_delay :=
  getNextDelay_formula freshState 1 (by norm_num) (by norm_num)

/-- Claim C8: whenever a previous request instant is set, any call to
`wait_with_progress` — whatever delay it asks for, 0 included — stamps a
new `last_request_time` at least `min_delay` after the previous one: the
floor raises the effective delay to at least `min_delay - elapsed` and the
call blocks for it (`exitTime` is the clock reading after the sleep, which
is at least the entry time plus the effective delay). In particular two
back-to-back calls with delay 0 and no time elapsing between them are
spaced by at least `min_delay`. -/
theorem min_spacing_enforced (s : AnalyzerState) (delay now exitTime : ℚ)
    (hpos : 0 < s.last_request_time)
    (hmono : s.last_request_time ≤ now)
    (hexit : now + effectiveWaitDelay s delay now ≤ exitTime) :
    s.last_request_time + min_delay ≤
      (waitWithProgress s delay now exitTime).last_request_time := by
  unfold waitWithProgress
  unfold effectiveWaitDelay at hexit ⊢
  by_cases hfloor : 0 < s.last_request_time ∧ now - s.last_request_time < min_delay
  · rw [if_pos hfloor] at hexit ⊢
    have hd : min_delay - (now - s.last_request_time) ≤
        max delay (min_delay - (now - s.last_request_time)) := le_max_right _ _
    have hdpos : ¬ max delay (min_delay - (now - s.last_request_time)) ≤ 0 := by
      rw [min_delay] at hfloor hd ⊢
      push_neg
      linarith [hfloor.2]
    rw [if_neg hdpos]
    simp only [min_delay] at *
    linarith
  · rw [if_neg hfloor] at hexit ⊢
    have hnear : ¬ now - s.last_request_time < min_delay := by
      intro h; exact hfloor ⟨hpos, h⟩
    by_cases hd0 : delay ≤ 0
    · rw [if_pos hd0]
      simp only [min_delay] at *
      push_neg at hnear
      linarith
    · rw [if_neg hd0]
      simp only [min_delay] at *
      push_neg at hnear hd0
      linarith

/-- Witness for claim C8: a state whose last request was stamped at time 1,
asked to wait 0 again at time 1; the effective delay is 3 and the next
stamp is at time 4 = 1 + min_delay. -/
theorem min_spacing_enforced_witness :
    ({ freshState with last_request_time := 1 } : AnalyzerState).last_request_time +
        min_delay ≤
      (waitWithProgress { freshState with last_request_time := 1 } 0 1 4).last_request_time :=
  min_spacing_enforced { freshState with last_request_time := 1 } 0 1 4
    (by norm_num [freshState]) (by norm_num [freshState])
    (by norm_num [freshState, effectiveWaitDelay, min_delay])


lemma buildEvents_map_some (l : List RateLimitEvent) :
    buildEvents (l.map some) = some l := by
  induction l with
  | nil => rfl
  | cons e rest ih => simp [buildEvents, ih]

lemma buildEvents_drop_map_some (l : List RateLimitEvent) (n : ℕ) :
    buildEvents (List.drop n (List.map some l)) = some (List.drop n l) := by
  rw [← List.map_drop, buildEvents_map_some]

lemma loadAnalysis_saveAnalysis (s : AnalyzerState) (saveNow loadNow : ℚ)
    (hfresh : loadNow - saveNow < 86400) :
    loadAnalysis freshState (.parsed (saveAnalysis s saveNow)) loadNow =
      { freshState with
        current_delay := s.current_delay,
        consecutive_successes := s.consecutive_successes,
        consecutive_failures := s.consecutive_failures,
        rate_limit_detected := s.rate_limit_detected,
        events := s.events.drop (s.events.length - 100) } := by
  simp [loadAnalysis, saveAnalysis, buildEvents_drop_map_some, hfresh]

/-- Claim C6, counterexample: a controller holding 101 events round-trips
to only the last 100 of them (`_save_analysis` keeps `events[-100:]`), so
the loaded event list is not identical to the saved one even though the
load happens immediately. -/
theorem roundtrip_loses_old_events :
    (loadAnalysis freshState
        (.parsed (saveAnalysis
          { freshState with events := List.replicate 101 sampleEvent } 0)) 0).events ≠
      ({ freshState with events := List.replicate 101 sampleEvent } : AnalyzerState).events := by
  rw [loadAnalysis_saveAnalysis _ _ _ (by norm_num)]
  intro h
  have hlen := congrArg List.length h
  simp [List.drop_replicate] at hlen

/-- Claim C6 as amended: saving then loading within 24 hours reproduces
`current_delay`, both counters, the flag, and the event list in order
whenever the log holds at most 100 events (the snapshot keeps only the
last 100, which forces that restriction); loading a snapshot saved more
than 24 hours before the load leaves the default fresh state. -/
theorem save_load_roundtrip :
    (∀ (s : AnalyzerState) (saveNow loadNow : ℚ),
      s.events.length ≤ 100 →
      loadNow - saveNow < 86400 →
      (loadAnalysis freshState (.parsed (saveAnalysis s saveNow)) loadNow).current_delay
          = s.current_delay ∧
      (loadAnalysis freshState (.parsed (saveAnalysis s saveNow)) loadNow).consecutive_successes
          = s.consecutive_successes ∧
      (loadAnalysis freshState (.parsed (saveAnalysis s saveNow)) loadNow).consecutive_failures
          = s.consecutive_failures ∧
      (loadAnalysis freshState (.parsed (saveAnalysis s saveNow)) loadNow).rate_limit_detected
          = s.rate_limit_detected ∧
      (loadAnalysis freshState (.parsed (saveAnalysis s saveNow)) loadNow).events
          = s.events) ∧
    (∀ (s : AnalyzerState) (saveNow loadNow : ℚ),
      86400 < loadNow - saveNow →
      loadAnalysis freshState (.parsed (saveAnalysis s saveNow)) loadNow = freshState) := by
  constructor
  · intro s saveNow loadNow hlen hfresh
    rw [loadAnalysis_saveAnalysis s saveNow loadNow hfresh,
      Nat.sub_eq_zero_of_le hlen, List.drop_zero]
    exact ⟨rfl, rfl, rfl, rfl, rfl⟩
  · intro s saveNow loadNow hstale
    have hcond : ¬ (loadNow - saveNow < 86400) := by linarith
    simp [loadAnalysis, saveAnalysis, hcond]

/-- Witness for the amended claim C6: one event saved at time 0 and loaded
at time 10 is reproduced verbatim; a load at time 100000 is discarded. -/
theorem save_load_roundtrip_witness :
    ((loadAnalysis freshState
        (.parsed (saveAnalysis { freshState with events := [sampleEvent] } 0)) 10).events
      = ({ freshState with events := [sampleEvent] } : AnalyzerState).events) ∧
    loadAnalysis freshState
        (.parsed (saveAnalysis { freshState with events := [sampleEvent] } 0)) 100000
      = freshState :=
  ⟨(save_load_roundtrip.1 { freshState with events := [sampleEvent] } 0 10
      (by simp) (by norm_num)).2.2.2.2,
   save_load_roundtrip.2 { freshState with events := [sampleEvent] } 0 100000
      (by norm_num)⟩


/-- Claim C7, failing input: a parsed snapshot that is fresh and has valid
scalar fields but one event record on which `RateLimitEvent(**event)`
raises. The comprehension raises only after the scalar assignments have
run, and the `except` clause merely logs, so the controller keeps
`current_delay = 7.0` with an empty event list instead of reverting to the
default fresh state; unparseable JSON, by contrast, is treated as absent
as claimed. -/
theorem partial_load_on_malformed_event :
    initAnalyzer (.parsed
        { current_delay := 7, consecutive_successes := 1,
          consecutive_failures := 0, rate_limit_detected := true,
          last_updated := 0, recent_events := [none] }) 0 ≠ freshState ∧
    (initAnalyzer (.parsed
        { current_delay := 7, consecutive_successes := 1,
          consecutive_failures := 0, rate_limit_detected := true,
          last_updated := 0, recent_events := [none] }) 0).current_delay = 7 ∧
    (initAnalyzer (.parsed
        { current_delay := 7, consecutive_successes := 1,
          consecutive_failures := 0, rate_limit_detected := true,
          last_updated := 0, recent_events := [none] }) 0).events = [] ∧
    initAnalyzer .unparseable 0 = freshState := by
  have hload : initAnalyzer (.parsed
      { current_delay := 7, consecutive_successes := 1,
        consecutive_failures := 0, rate_limit_detected := true,
        last_updated := 0, recent_events := [none] }) 0 =
      { freshState with
        current_delay := 7, consecutive_successes := 1,
        consecutive_failures := 0, rate_limit_detected := true } := by
    simp [initAnalyzer, loadAnalysis, buildEvents]
  refine ⟨?_, by rw [hload], by rw [hload]; rfl, rfl⟩
  rw [hload]
  intro h
  have hcd := congrArg AnalyzerState.current_delay h
  simp [freshState, min_delay] at hcd

/-- Claim C10: on a fresh, well-formed snapshot `_load_analysis` copies
the four scalar fields and the event list into the controller verbatim,
with no clamping and no mutual-exclusion check; in particular a well-formed
snapshot exists whose load leaves `current_delay` above `max_dynamic_delay`
and both counters nonzero at once, so the documented invariants only hold
for runs started from the default fresh state. -/
theorem load_copies_verbatim :
    (∀ (snap : Snapshot) (now : ℚ) (evs : List RateLimitEvent),
      now - snap.last_updated < 86400 →
      buildEvents snap.recent_events = some evs →
      loadAnalysis freshState (.parsed snap) now =
        { freshState with
          current_delay := snap.current_delay,
          consecutive_successes := snap.consecutive_successes,
          consecutive_failures := snap.consecutive_failures,
          rate_limit_detected := snap.rate_limit_detected,
          events := evs }) ∧
    (∃ snap : Snapshot,
      (buildEvents snap.recent_events).isSome ∧
      max_dynamic_delay <
        (loadAnalysis freshState (.parsed snap) snap.last_updated).current_delay ∧
      (loadAnalysis freshState (.parsed snap) snap.last_updated).consecutive_successes ≠ 0 ∧
      (loadAnalysis freshState (.parsed snap) snap.last_updated).consecutive_failures ≠ 0) := by
  have hcopy : ∀ (snap : Snapshot) (now : ℚ) (evs : List RateLimitEvent),
      now - snap.last_updated < 86400 →
      buildEvents snap.recent_events = some evs →
      loadAnalysis freshState (.parsed snap) now =
        { freshState with
          current_delay := snap.current_delay,
          consecutive_successes := snap.consecutive_successes,
          consecutive_failures := snap.consecutive_failures,
          rate_limit_detected := snap.rate_limit_detected,
          events := evs } := by
    intro snap now evs hfresh hevs
    simp [loadAnalysis, hfresh, hevs]
  refine ⟨hcopy,
    ⟨{ current_delay := 100, consecutive_successes := 5,
       consecutive_failures := 5, rate_limit_detected := false,
       last_updated := 0, recent_events := [] }, ?_, ?_⟩⟩
  · rfl
  · rw [hcopy { current_delay := 100, consecutive_successes := 5,
                consecutive_failures := 5, rate_limit_detected := false,
                last_updated := 0, recent_events := [] } 0 [] (by norm_num) rfl]
    refine ⟨?_, by simp, by simp⟩
    norm_num [max_dynamic_delay]

/-- Witness for claim C10 at a concrete fresh snapshot holding one
well-formed event record. -/
theorem load_copies_verbatim_witness :
    loadAnalysis freshState (.parsed
        { current_delay := 100, consecutive_successes := 5,
          consecutive_failures := 5, rate_limit_detected := false,
          last_updated := 0, recent_events := [some sampleEvent] }) 0 =
      { freshState with
        current_delay := 100, consecutive_successes := 5,
        consecutive_failures := 5, rate_limit_detected := false,
        events := [sampleEvent] } :=
  load_copies_verbatim.1
    { current_delay := 100, consecutive_successes := 5,
      consecutive_failures := 5, rate_limit_detected := false,
      last_updated := 0, recent_events := [some sampleEvent] } 0 [sampleEvent]
    (by norm_num) (by simp [buildEvents])


/-- Claim C9: `get_status_report` reports `no_data` with the current delay
and a false rate-limit field when no event falls in the last hour;
otherwise it reports the success rate over the window and classifies with
`rate_limit_detected` taking priority, then `success_rate > 0.9` as
optimal, then `success_rate > 0.7` as cautious, and problematic otherwise.
The source mutates no field, which the embedding reflects by
`getStatusReport` being a function of the state alone. -/
theorem status_report_classification (s : AnalyzerState) (now : ℚ) :
    let recent := s.events.filter (fun e => now - 3600 < e.timestamp)
    let rate : ℚ :=
      ((recent.filter (fun e => e.event_type = .success)).length : ℚ) /
        (recent.length : ℚ)
    (recent = [] →
      (getStatusReport s now).status = .no_data ∧
      (getStatusReport s now).current_delay = s.current_delay ∧
      (getStatusReport s now).rate_limit_detected = false) ∧
    (recent ≠ [] →
      (getStatusReport s now).success_rate = some rate ∧
      (getStatusReport s now).current_delay = s.current_delay ∧
      (getStatusReport s now).rate_limit_detected = s.rate_limit_detected ∧
      (getStatusReport s now).status =
        (if s.rate_limit_detected then Status.rate_limited
         else if 9/10 < rate then Status.optimal
         else if 7/10 < rate then Status.cautious
         else Status.problematic)) := by
  intro recent rate
  unfold_let recent rate
  constructor
  · intro hempty
    have : (s.events.filter (fun e => now - 3600 < e.timestamp)).isEmpty = true := by
      rw [List.isEmpty_iff]
      exact hempty
    simp [getStatusReport, this]
  · intro hne
    have : (s.events.filter (fun e => now - 3600 < e.timestamp)).isEmpty = false := by
      rw [List.isEmpty_eq_false_iff_exists_mem]
      rcases List.exists_mem_of_ne_nil _ hne with ⟨e, he⟩
      exact ⟨e, he⟩
    simp [getStatusReport, this, apply_ite Prod.fst]

/-- Witness for claim C9 at the fresh state (empty log, so the window is
empty) and at a one-success-event state (nonempty window, flag clear,
success rate 1, hence optimal). -/
theorem status_report_classification_witness :
    ((getStatusReport freshState 0).status = .no_data ∧
      (getStatusReport freshState 0).current_delay = freshState.current_delay ∧
      (getStatusReport freshState 0).rate_limit_detected = false) ∧
    (getStatusReport { freshState with events := [sampleEvent] } 0).status =
      (if ({ freshState with events := [sampleEvent] } : AnalyzerState).rate_limit_detected
        then Status.rate_limited
       else if 9/10 <
          (((([sampleEvent].filter (fun e => (0:ℚ) - 3600 < e.timestamp)).filter
              (fun e => e.event_type = .success)).length : ℚ) /
            (([sampleEvent].filter (fun e => (0:ℚ) - 3600 < e.timestamp)).length : ℚ))
        then Status.optimal
       else if 7/10 <
          (((([sampleEvent].filter (fun e => (0:ℚ) - 3600 < e.timestamp)).filter
              (fun e => e.event_type = .success)).length : ℚ) /
            (([sampleEvent].filter (fun e => (0:ℚ) - 3600 < e.timestamp)).length : ℚ))
        then Status.cautious
       else Status.problematic) :=
  ⟨(status_report_classification freshState 0).1 rfl,
   ((status_report_classification { freshState with events := [sampleEvent] } 0).2
      (by simp [sampleEvent])).2.2.2⟩

end Ico
